import Mathlib

/-!
Verification development for the CC1101 serial-to-radio gateway sketch
(`src/main.cpp`).  The sketch's protocol engine is shallowly embedded here:

* Arduino `String` operations (`startsWith`, `indexOf`, `lastIndexOf`,
  `substring`, `toInt`, `toFloat`, the `String(n, HEX)` constructor) are
  modelled over `List Char`, following the Arduino core library semantics
  (indices are C `int`/`unsigned int` values, so they are modelled as `Int`
  with the 32-bit unsigned conversion made explicit where `substring`
  receives them).
* `float` values are modelled as exact rationals (`Rat`): the only float
  logic in the sketch is decimal text-to-number conversion, which is exact
  at this level of abstraction.
* The radio, the JSON codec and the serial port are external collaborators:
  the radio outcome (`transmit` success/failure, `receive` result) and the
  JSON parse/serialize outcome are passed in as parameters, and everything
  the sketch sends out (serial lines, radio calls) is recorded as an
  explicit `Event`.
* `ArduinoQueue<String> packetQueue(50)` is a bounded FIFO of capacity 50
  whose `enqueue` silently drops when full.
-/

namespace CC1101

abbrev Str := List Char

/-! ### Arduino `String` library model -/

/-- Arduino `String::startsWith`: membership of `pre` as a prefix of `s`. -/
def startsWithArd (s pre : Str) : Bool := pre.isPrefixOf s

/-- Index of the first occurrence of `c` in a list, if any. -/
def idxOfAux (c : Char) : Str → Option Nat
  | [] => none
  | x :: xs => if x = c then some 0 else (idxOfAux c xs).map (· + 1)

/-- Arduino `String::indexOf(ch, fromIndex)`: first occurrence at an index
`≥ start`, or `-1` when there is none (also when `start` is past the end). -/
def indexOfFrom (s : Str) (c : Char) (start : Nat) : Int :=
  match idxOfAux c (s.drop start) with
  | some i => ((start + i : Nat) : Int)
  | none => -1

/-- Arduino `String::indexOf(ch)`. -/
def indexOfArd (s : Str) (c : Char) : Int := indexOfFrom s c 0

/-- Index of the last occurrence of `c` in a list, if any. -/
def lastIdxAux (c : Char) : Str → Option Nat
  | [] => none
  | x :: xs =>
    match lastIdxAux c xs with
    | some i => some (i + 1)
    | none => if x = c then some 0 else none

/-- Arduino `String::lastIndexOf(ch)`: last occurrence, or `-1`. -/
def lastIndexOfArd (s : Str) (c : Char) : Int :=
  match lastIdxAux c s with
  | some i => (i : Int)
  | none => -1

/-- Conversion of a C `int` to `unsigned int` (32-bit), as done implicitly
when an `indexOf` result is passed to `String::substring`. -/
def u32 (i : Int) : Nat := (i % 4294967296).toNat

/-- Arduino `String::substring(left, right)` (both `unsigned int`):
swaps the endpoints if out of order, returns `""` when the left endpoint is
past the end, clamps the right endpoint to the length. -/
def substringArd (s : Str) (li ri : Int) : Str :=
  if s.length ≤ min (u32 li) (u32 ri) then []
  else (s.take (min (max (u32 li) (u32 ri)) s.length)).drop (min (u32 li) (u32 ri))

def isDigitC (c : Char) : Bool := '0' ≤ c && c ≤ '9'

def isSpaceC (c : Char) : Bool :=
  c == ' ' || c == '\t' || c == '\n' || c == '\x0b' || c == '\x0c' || c == '\r'

/-- Decimal value of a digit string (most significant first). -/
def digitsToNat (l : Str) : Nat := l.foldl (fun a c => a * 10 + (c.toNat - 48)) 0

/-- Arduino `String::toInt` (newlib `atol`/`strtol` in base 10, with `long`
being 32 bits on this target): optional whitespace, optional sign, then a
maximal run of digits; anything malformed yields `0`; a value outside the
32-bit `long` range saturates at `LONG_MAX` / `LONG_MIN`. -/
def atolArd (s : Str) : Int :=
  let s1 := s.dropWhile isSpaceC
  let v : Int := match s1 with
    | '-' :: r => -((digitsToNat (r.takeWhile isDigitC) : Nat) : Int)
    | '+' :: r => ((digitsToNat (r.takeWhile isDigitC) : Nat) : Int)
    | _ => ((digitsToNat (s1.takeWhile isDigitC) : Nat) : Int)
  if v < -2147483648 then -2147483648
  else if v > 2147483647 then 2147483647
  else v

/-- Exponent part of a C `strtod` literal (after the `e`/`E`). -/
def expVal (r : Str) : Int :=
  match r with
  | '-' :: d => if (d.takeWhile isDigitC).isEmpty then 0
                else -((digitsToNat (d.takeWhile isDigitC) : Nat) : Int)
  | '+' :: d => ((digitsToNat (d.takeWhile isDigitC) : Nat) : Int)
  | d => ((digitsToNat (d.takeWhile isDigitC) : Nat) : Int)

/-- The textual pieces of a C `strtod` decimal literal: sign, integer
digits, fraction digits, exponent value. -/
structure FloatText where
  neg : Bool
  ip : Str
  fp : Str
  ex : Int
deriving Repr, DecidableEq

/-- Text analysis of a C `strtod` decimal input: optional whitespace and
sign, integer digits, optional fractional digits, optional exponent. -/
def strtodParse (s : Str) : FloatText :=
  let s1 := s.dropWhile isSpaceC
  let neg : Bool := match s1 with
    | '-' :: _ => true
    | _ => false
  let s2 : Str := match s1 with
    | '-' :: r => r
    | '+' :: r => r
    | _ => s1
  let ip := s2.takeWhile isDigitC
  let s3 := s2.dropWhile isDigitC
  let fp : Str := match s3 with
    | '.' :: r => r.takeWhile isDigitC
    | _ => []
  let s4 : Str := match s3 with
    | '.' :: r => r.dropWhile isDigitC
    | _ => s3
  let e : Int := match s4 with
    | 'e' :: r => expVal r
    | 'E' :: r => expVal r
    | _ => 0
  { neg := neg, ip := ip, fp := fp, ex := e }

/-- Arduino `String::toFloat` (C `atof`/`strtod` on decimal input), with the
parsed value represented exactly as a rational; text with no leading digits
at all yields `0`. -/
def strtodQ (s : Str) : Rat :=
  let t := strtodParse s
  if t.ip.isEmpty && t.fp.isEmpty then 0
  else
    let mant : Rat := ((digitsToNat t.ip : Nat) : Rat) +
      ((digitsToNat t.fp : Nat) : Rat) / ((10 : Rat) ^ t.fp.length)
    let v := mant * (10 : Rat) ^ t.ex
    if t.neg then -v else v

/-- The Arduino `String(value, HEX)` constructor: minimal-width lowercase
hexadecimal digits, no leading zero (`0 ↦ "0"`). -/
def ardHexStr (n : Nat) : Str := Nat.toDigits 16 n

/-- Decimal rendering of a `Nat`, as printed by `Serial.print`. -/
def printNatArd (n : Nat) : Str := Nat.toDigits 10 n

/-- `Serial.print` on a C `int`. -/
def printIntArd (i : Int) : Str :=
  if i < 0 then '-' :: printNatArd i.natAbs else printNatArd i.toNat

/-- `ArduinoQueue::enqueue` on a queue of capacity 50: appends at the tail,
silently drops the item when the queue is full. -/
def enqueueArd (q : List Str) (x : Str) : List Str :=
  if q.length < 50 then q ++ [x] else q

/-! ### Program state and observable events -/

/-- The sketch's mutable globals: `packetQueue` (head = front of the FIFO),
`transmitMode` and `currentFreq`. -/
structure ProgState where
  packetQueue : List Str
  transmitMode : Bool
  currentFreq : Rat
deriving Repr, DecidableEq

/-- `packetQueue` empty, `transmitMode = true`, `currentFreq = 868.0`. -/
def initialState : ProgState :=
  { packetQueue := [], transmitMode := true, currentFreq := 868 }

/-- Everything the sketch emits towards the outside world: a serial output
line, a `radio.setFrequency` call, or a `radio.transmit` call. -/
inductive Event where
  | line (s : Str)
  | setFreq (f : Rat)
  | transmit (p : Str)
deriving Repr, DecidableEq

/-! ### Protocol string constants -/

def pSET : Str := ['<', 'S', 'E', 'T', '|']
def pTXMODE : Str := ['<', 'T', 'X', 'M', 'O', 'D', 'E', '>']
def pRXMODE : Str := ['<', 'R', 'X', 'M', 'O', 'D', 'E', '>']
def pRX_READY : Str := ['<', 'R', 'X', '_', 'R', 'E', 'A', 'D', 'Y', '>']
def pFILE : Str := ['<', 'F', 'I', 'L', 'E', '|']
def pDATA : Str := ['<', 'D', 'A', 'T', 'A', '|']

def chBar : Char := '|'
def chGT : Char := '>'

def sFREQ_SET : Str := ("<STATUS|FREQ_SET>").toList
def sTX_MODE : Str := ("<STATUS|TX_MODE>").toList
def sRX_MODE : Str := ("<STATUS|RX_MODE>").toList
def sRX_READY : Str := ("<STATUS|RX_READY>").toList
def sFILE_START : Str := ("<STATUS|FILE_START|").toList
def sTX_SUCCESS : Str := ("<STATUS|TX_SUCCESS>").toList
def sTX_FAIL : Str := ("<STATUS|TX_FAIL>").toList
def sCHECKSUM_ERR : Str := ("<STATUS|CHECKSUM_ERR>").toList
def sERR_JSON : Str := ("<ERROR|JSON:").toList
def sDATA_OPEN : Str := ("<DATA|").toList

/-! ### The checksum validator -/

/-- `calculateChecksum`: running sum of the character values, reduced
modulo 256 after each addition (`uint8_t sum`). -/
def calculateChecksum (payload : Str) : Nat :=
  payload.foldl (fun s c => (s + c.toNat) % 256) 0

/-! ### The command interpreter (`handleRadioCommand`) -/

/-- `handleRadioCommand`: first-match dispatch over the six fixed command
line formats; any other line falls through with no effect. -/
def handleRadioCommand (command : Str) (st : ProgState) : ProgState × List Event :=
  if startsWithArd command pSET then
    let f := strtodQ (substringArd command 5 (indexOfArd command ','))
    ({ st with currentFreq := f }, [Event.setFreq f, Event.line sFREQ_SET])
  else if startsWithArd command pTXMODE then
    ({ st with transmitMode := true }, [Event.line sTX_MODE])
  else if startsWithArd command pRXMODE then
    ({ st with transmitMode := false }, [Event.line sRX_MODE])
  else if startsWithArd command pRX_READY then
    (st, [Event.line sRX_READY])
  else if startsWithArd command pFILE then
    let filename := substringArd command 6 (indexOfFrom command chBar 6)
    let total := atolArd (substringArd command ((indexOfFrom command chBar 6) + 1)
      (lastIndexOfArd command chBar))
    let size := atolArd (substringArd command ((lastIndexOfArd command chBar) + 1)
      (indexOfArd command chGT))
    (st, [Event.line (sFILE_START ++ filename ++ [chBar] ++ printIntArd total ++ [chGT])])
  else if startsWithArd command pDATA then
    ({ st with packetQueue :=
        enqueueArd st.packetQueue (substringArd command 6 (indexOfArd command chGT)) }, [])
  else
    (st, [])

/-- `transmitMode`/`currentFreq`/queue evolution over a list of host lines
(the `handleRadioCommand` part of `loop`, one line per iteration). -/
def runCommands (cmds : List Str) (st : ProgState) : ProgState :=
  cmds.foldl (fun s c => (handleRadioCommand c s).1) st

/-! ### The outbound queue (`handleTransmission`) -/

/-- `handleTransmission`, with the radio collaborator's outcome for this
attempt (`radio.transmit(packet) == RADIOLIB_ERR_NONE`) passed as `txOk`. -/
def handleTransmission (txOk : Bool) (st : ProgState) : ProgState × List Event :=
  match st.packetQueue with
  | [] => (st, [])
  | p :: rest =>
    if txOk then
      ({ st with packetQueue := rest }, [Event.transmit p, Event.line sTX_SUCCESS])
    else
      ({ st with packetQueue := enqueueArd rest p }, [Event.transmit p, Event.line sTX_FAIL])

/-- Several consecutive transmission attempts, given the radio outcome of
each, with all emitted events concatenated in order. -/
def runTransmissions : List Bool → ProgState → ProgState × List Event
  | [], st => (st, [])
  | b :: bs, st =>
    let r := handleTransmission b st
    let r2 := runTransmissions bs r.1
    (r2.1, r.2 ++ r2.2)

/-! ### The inbound packet decoder (`handleReception`) -/

/-- The parsed JSON payload: the seven required keys of the over-the-air
object, as delivered by the JSON collaborator. -/
structure Packet where
  type : Str
  seq : Nat
  total : Nat
  filename : Str
  checksum : Str
  data_len : Nat
  data : Str
deriving Repr, DecidableEq

/-- `PacketHeader`: the fixed-size header buffers filled from the parsed
document (`char type[8]`, `uint16_t seq`, `uint16_t total`,
`char filename[32]`, `char checksum[3]`, `size_t data_len`). -/
structure PacketHeader where
  type : Str
  seq : Nat
  total : Nat
  filename : Str
  checksum : Str
  data_len : Nat
deriving Repr, DecidableEq

/-- Population of a `PacketHeader` from the parsed document: `strlcpy`
truncates `type` to 7 characters, `filename` to 31 and `checksum` to 2;
`seq`/`total` are converted to `uint16_t`. -/
def mkHeader (p : Packet) : PacketHeader :=
  { type := p.type.take 7
    seq := p.seq % 65536
    total := p.total % 65536
    filename := p.filename.take 31
    checksum := p.checksum.take 2
    data_len := p.data_len }

/-- `handleReception`. The radio and JSON collaborators are abstracted:
`rx = none` models `radio.receive` reporting no packet (any non-success
state), `some (Except.error msg)` a received payload that fails JSON
parsing with message `msg`, and `some (Except.ok p)` a successfully parsed
payload; `ser` is the JSON collaborator's `serializeJson` on the parsed
document. -/
def handleReception (ser : Packet → Str) (rx : Option (Except Str Packet))
    (st : ProgState) : ProgState × List Event :=
  match rx with
  | none => (st, [])
  | some (Except.error msg) => (st, [Event.line (sERR_JSON ++ msg ++ [chGT])])
  | some (Except.ok p) =>
    let header := mkHeader p
    let calcSum := calculateChecksum p.data
    if ardHexStr calcSum ≠ header.checksum then
      (st, [Event.line sCHECKSUM_ERR])
    else
      (st, [Event.line (sDATA_OPEN ++ ser p ++ [chGT])])

end CC1101

namespace CC1101

/-! ### Helper lemmas -/

lemma checksum_fold (p : Str) : ∀ (a : Nat), a < 256 →
    List.foldl (fun s c => (s + c.toNat) % 256) a p = (a + (p.map Char.toNat).sum) % 256 := by
  induction p with
  | nil => intro a ha; simp [Nat.mod_eq_of_lt ha]
  | cons c rest ih =>
    intro a ha
    simp only [List.foldl_cons, List.map_cons, List.sum_cons]
    rw [ih ((a + c.toNat) % 256) (Nat.mod_lt _ (by norm_num))]
    rw [Nat.mod_add_mod, Nat.add_assoc]

lemma isPrefixOf_append_self : ∀ (p t : Str), List.isPrefixOf p (p ++ t) = true := by
  intro p t
  induction p with
  | nil => simp [List.isPrefixOf]
  | cons x xs ih => simp [List.isPrefixOf, ih]

/-- Two candidate prefixes that agree on their first character but differ on
their second can never both be prefixes of the same line. -/
lemma isPrefixOf_two (x a b : Char) (p q c : Str) (hab : a ≠ b)
    (h : List.isPrefixOf (x :: a :: p) c = true) :
    List.isPrefixOf (x :: b :: q) c = false := by
  cases c with
  | nil => simp [List.isPrefixOf] at h
  | cons y c1 =>
    cases c1 with
    | nil => simp [List.isPrefixOf] at h
    | cons z t =>
      simp only [List.isPrefixOf, Bool.and_eq_true, beq_iff_eq] at h
      obtain ⟨hxy, haz, _⟩ := h
      subst haz
      simp only [List.isPrefixOf, Bool.and_eq_false_iff]
      right
      left
      exact beq_eq_false_iff_ne.mpr (fun hba => hab hba.symm)

/-- The command interpreter's effect on `transmitMode`, over all lines. -/
lemma mode_after (c : Str) (st : ProgState) :
    (handleRadioCommand c st).1.transmitMode =
      if startsWithArd c pRXMODE then false
      else if startsWithArd c pTXMODE then true
      else st.transmitMode := by
  unfold handleRadioCommand startsWithArd
  by_cases h1 : List.isPrefixOf pSET c
  · have hTX : List.isPrefixOf pTXMODE c = false :=
      isPrefixOf_two '<' 'S' 'T' (pSET.drop 2) (pTXMODE.drop 2) c (by decide) h1
    have hRX : List.isPrefixOf pRXMODE c = false :=
      isPrefixOf_two '<' 'S' 'R' (pSET.drop 2) (pRXMODE.drop 2) c (by decide) h1
    simp [h1, hTX, hRX]
  · by_cases h2 : List.isPrefixOf pTXMODE c
    · have hRX : List.isPrefixOf pRXMODE c = false :=
        isPrefixOf_two '<' 'T' 'R' (pTXMODE.drop 2) (pRXMODE.drop 2) c (by decide) h2
      simp [h1, h2, hRX]
    · by_cases h3 : List.isPrefixOf pRXMODE c
      · simp [h1, h2, h3]
      · by_cases h4 : List.isPrefixOf pRX_READY c
        · simp [h1, h2, h3, h4]
        · by_cases h5 : List.isPrefixOf pFILE c
          · simp [h1, h2, h3, h4, h5]
          · by_cases h6 : List.isPrefixOf pDATA c
            · simp [h1, h2, h3, h4, h5, h6]
            · simp [h1, h2, h3, h4, h5, h6]

/-- Claim C2: `calculateChecksum` is the running modular sum of the
character values, equal to the plain character-value sum reduced modulo 256;
it always lies in `[0, 255]`, is `0` on the empty payload, and as a pure
function returns the same value on repeated calls. -/
theorem calculateChecksum_spec : ∀ p : Str,
    calculateChecksum p = (p.map Char.toNat).sum % 256 ∧
    calculateChecksum p ≤ 255 ∧
    calculateChecksum ([] : Str) = 0 ∧
    calculateChecksum p = calculateChecksum p := by
  intro p
  have h : calculateChecksum p = (p.map Char.toNat).sum % 256 := by
    unfold calculateChecksum
    simpa using checksum_fold p 0 (by norm_num)
  refine ⟨h, ?_, rfl, rfl⟩
  rw [h]
  omega

end CC1101

namespace CC1101

/-- A `<RXMODE>`-prefixed line: full effect of the interpreter. -/
lemma rxmode_events (c : Str) (st : ProgState) (h : startsWithArd c pRXMODE = true) :
    handleRadioCommand c st = ({ st with transmitMode := false }, [Event.line sRX_MODE]) := by
  unfold startsWithArd at h
  have hS : List.isPrefixOf pSET c = false :=
    isPrefixOf_two '<' 'R' 'S' (pRXMODE.drop 2) (pSET.drop 2) c (by decide) h
  have hT : List.isPrefixOf pTXMODE c = false :=
    isPrefixOf_two '<' 'R' 'T' (pRXMODE.drop 2) (pTXMODE.drop 2) c (by decide) h
  unfold handleRadioCommand startsWithArd
  simp [h, hS, hT]

/-- A `<TXMODE>`-prefixed line: full effect of the interpreter. -/
lemma txmode_events (c : Str) (st : ProgState) (h : startsWithArd c pTXMODE = true) :
    handleRadioCommand c st = ({ st with transmitMode := true }, [Event.line sTX_MODE]) := by
  unfold startsWithArd at h
  have hS : List.isPrefixOf pSET c = false :=
    isPrefixOf_two '<' 'T' 'S' (pTXMODE.drop 2) (pSET.drop 2) c (by decide) h
  unfold handleRadioCommand startsWithArd
  simp [h, hS]

/-- Lines that are neither `<RXMODE>`- nor `<TXMODE>`-prefixed preserve a
`transmitMode` that is `true`. -/
lemma mode_preserved (cmds : List Str) : ∀ st : ProgState,
    (∀ c ∈ cmds, startsWithArd c pRXMODE = false ∧ startsWithArd c pTXMODE = false) →
    st.transmitMode = true → (runCommands cmds st).transmitMode = true := by
  induction cmds with
  | nil => intro st _ h; simpa [runCommands] using h
  | cons c rest ih =>
    intro st hall hmode
    show (runCommands rest (handleRadioCommand c st).1).transmitMode = true
    apply ih
    · intro d hd
      exact hall d (List.mem_cons_of_mem c hd)
    · rw [mode_after]
      simp [(hall c (List.mem_cons_self c rest)).1, (hall c (List.mem_cons_self c rest)).2, hmode]

/-- Claim C4: `transmitMode` starts `true`; a line changes it to `false`
exactly when it is `<RXMODE>`-prefixed (emitting `<STATUS|RX_MODE>`) and to
`true` exactly when it is `<TXMODE>`-prefixed (emitting `<STATUS|TX_MODE>`),
every other line leaving it unchanged; `<RXMODE>` then `<TXMODE>` yields TX
from any state, and any command sequence containing neither prefix leaves
the machine in its initial TX state. -/
theorem mode_machine_spec :
    initialState.transmitMode = true
    ∧ (∀ (c : Str) (st : ProgState),
        (handleRadioCommand c st).1.transmitMode =
          if startsWithArd c pRXMODE then false
          else if startsWithArd c pTXMODE then true
          else st.transmitMode)
    ∧ (∀ (c : Str) (st : ProgState), startsWithArd c pRXMODE = true →
        handleRadioCommand c st = ({ st with transmitMode := false }, [Event.line sRX_MODE]))
    ∧ (∀ (c : Str) (st : ProgState), startsWithArd c pTXMODE = true →
        handleRadioCommand c st = ({ st with transmitMode := true }, [Event.line sTX_MODE]))
    ∧ (∀ st : ProgState, (runCommands [pRXMODE, pTXMODE] st).transmitMode = true)
    ∧ (∀ cmds : List Str,
        (∀ c ∈ cmds, startsWithArd c pRXMODE = false ∧ startsWithArd c pTXMODE = false) →
        (runCommands cmds initialState).transmitMode = true) := by
  refine ⟨rfl, mode_after, rxmode_events, txmode_events, ?_, ?_⟩
  · intro st
    show ((handleRadioCommand pTXMODE (handleRadioCommand pRXMODE st).1).1).transmitMode = true
    rw [txmode_events pTXMODE _ (by decide)]
  · intro cmds h
    exact mode_preserved cmds initialState h rfl

/-- Witness for C4 at a concrete command sequence with neither prefix. -/
theorem mode_machine_spec_witness :
    (runCommands [("<RX_READY>").toList, ("hello").toList] initialState).transmitMode = true :=
  mode_machine_spec.2.2.2.2.2 [("<RX_READY>").toList, ("hello").toList] (by decide)

/-- A line matches none of the six command formats. -/
def matchesNone (cmd : Str) : Bool :=
  !(startsWithArd cmd pSET || startsWithArd cmd pTXMODE || startsWithArd cmd pRXMODE ||
    startsWithArd cmd pRX_READY || startsWithArd cmd pFILE || startsWithArd cmd pDATA)

/-- Claim C6: a line matching none of the six fixed prefixes produces no
output and no state change at all. -/
theorem unrecognized_line_noop : ∀ (cmd : Str) (st : ProgState),
    matchesNone cmd = true → handleRadioCommand cmd st = (st, []) := by
  intro cmd st h
  unfold matchesNone at h
  simp only [Bool.not_eq_true', Bool.or_eq_false_iff] at h
  obtain ⟨⟨⟨⟨⟨h1, h2⟩, h3⟩, h4⟩, h5⟩, h6⟩ := h
  unfold handleRadioCommand
  simp [h1, h2, h3, h4, h5, h6]

/-- Witness for C6 at the spec's example line. -/
theorem unrecognized_line_noop_witness :
    handleRadioCommand (("hello world").toList) initialState = (initialState, []) :=
  unrecognized_line_noop (("hello world").toList) initialState (by decide)

/-- Claim C3: a failing attempt dequeues the head, emits `<STATUS|TX_FAIL>`
and re-enqueues the same payload at the tail (a succeeding one dequeues it
and emits `<STATUS|TX_SUCCESS>`); from queue `[A, B]`, outcomes
fail-then-succeed for `A` with `B` succeeding give the emission order
TX_FAIL (A), TX_SUCCESS (B), TX_SUCCESS (A). -/
theorem transmission_retry_order :
    (∀ (st : ProgState) (p : Str) (rest : List Str), st.packetQueue = p :: rest →
      rest.length < 50 →
      handleTransmission false st =
        ({ st with packetQueue := rest ++ [p] }, [Event.transmit p, Event.line sTX_FAIL]) ∧
      handleTransmission true st =
        ({ st with packetQueue := rest }, [Event.transmit p, Event.line sTX_SUCCESS]))
    ∧ (∀ (A B : Str) (st : ProgState), st.packetQueue = [A, B] →
        (runTransmissions [false, true, true] st).2 =
          [Event.transmit A, Event.line sTX_FAIL,
           Event.transmit B, Event.line sTX_SUCCESS,
           Event.transmit A, Event.line sTX_SUCCESS] ∧
        (runTransmissions [false, true, true] st).1.packetQueue = []) := by
  constructor
  · intro st p rest hq hlen
    obtain ⟨q, m, f⟩ := st
    simp only at hq
    subst hq
    constructor
    · simp [handleTransmission, enqueueArd, hlen]
    · simp [handleTransmission]
  · intro A B st hq
    obtain ⟨q, m, f⟩ := st
    simp only at hq
    subst hq
    constructor
    · norm_num [runTransmissions, handleTransmission, enqueueArd]
    · norm_num [runTransmissions, handleTransmission, enqueueArd]

/-- Fixed initial state for the C3 witness: queue `[A, B]`. -/
def stC3 : ProgState :=
  { packetQueue := [("a").toList, ("b").toList], transmitMode := true, currentFreq := 868 }

/-- Witness for C3 at the concrete queue `["a", "b"]`. -/
theorem transmission_retry_order_witness :
    (runTransmissions [false, true, true] stC3).2 =
      [Event.transmit (("a").toList), Event.line sTX_FAIL,
       Event.transmit (("b").toList), Event.line sTX_SUCCESS,
       Event.transmit (("a").toList), Event.line sTX_SUCCESS] ∧
    (runTransmissions [false, true, true] stC3).1.packetQueue = [] :=
  transmission_retry_order.2 (("a").toList) (("b").toList) stC3 rfl

/-- Claim C9: a transmission attempt never grows the queue; it is a no-op
on an empty queue, removes exactly the head on success, and on failure
keeps the same size and the same multiset of payloads with the former head
moved to the tail. -/
theorem transmission_queue_bounds :
    ∀ st : ProgState, st.packetQueue.length ≤ 50 →
      (∀ txOk : Bool,
        (handleTransmission txOk st).1.packetQueue.length ≤ st.packetQueue.length)
      ∧ (∀ txOk : Bool, st.packetQueue = [] →
          handleTransmission txOk st = (st, []))
      ∧ (∀ (p : Str) (rest : List Str), st.packetQueue = p :: rest →
          (handleTransmission true st).1.packetQueue = rest)
      ∧ (∀ (p : Str) (rest : List Str), st.packetQueue = p :: rest →
          (handleTransmission false st).1.packetQueue = rest ++ [p]
          ∧ ((handleTransmission false st).1.packetQueue : Multiset Str) =
              (st.packetQueue : Multiset Str)
          ∧ (handleTransmission false st).1.packetQueue.length = st.packetQueue.length) := by
  intro st hlen
  obtain ⟨q, m, f⟩ := st
  simp only at hlen
  refine ⟨?_, ?_, ?_, ?_⟩
  · intro txOk
    cases q with
    | nil => simp [handleTransmission]
    | cons p rest =>
      cases txOk
      · have hr : rest.length < 50 := by simp at hlen; omega
        simp [handleTransmission, enqueueArd, hr]
      · simp [handleTransmission]
  · intro txOk hq
    simp only at hq
    subst hq
    simp [handleTransmission]
  · intro p rest hq
    simp only at hq
    subst hq
    simp [handleTransmission]
  · intro p rest hq
    simp only at hq
    subst hq
    have hr : rest.length < 50 := by simp at hlen; omega
    refine ⟨by simp [handleTransmission, enqueueArd, hr], ?_, by simp [handleTransmission, enqueueArd, hr]⟩
    simp only [handleTransmission, enqueueArd, if_pos hr]
    exact Multiset.coe_eq_coe.mpr (List.perm_append_singleton p rest)

/-- Fixed state for the C9 witness: queue `["x"]`. -/
def stC9 : ProgState :=
  { packetQueue := [("x").toList], transmitMode := true, currentFreq := 868 }

/-- Witness for C9 at the concrete queue `["x"]` with a failing attempt. -/
theorem transmission_queue_bounds_witness :
    (handleTransmission false stC9).1.packetQueue = [] ++ [("x").toList] ∧
    ((handleTransmission false stC9).1.packetQueue : Multiset Str) =
      (stC9.packetQueue : Multiset Str) ∧
    (handleTransmission false stC9).1.packetQueue.length = stC9.packetQueue.length :=
  (transmission_queue_bounds stC9 (by decide)).2.2.2 (("x").toList) [] rfl

end CC1101

namespace CC1101

/-- Trivial stand-in for the JSON collaborator's serializer, used to
instantiate the decoder at concrete packets. -/
def serNil : Packet → Str := fun _ => []

/-- Claim C7: a parse failure emits exactly one `<ERROR|JSON:<message>>`
line and nothing else; a checksum mismatch emits exactly one
`<STATUS|CHECKSUM_ERR>` line; and reception never mutates any program state
(queue, `transmitMode`, `currentFreq`), whatever the outcome. -/
theorem reception_error_handling :
    (∀ (ser : Packet → Str) (st : ProgState) (msg : Str),
      handleReception ser (some (Except.error msg)) st =
        (st, [Event.line (sERR_JSON ++ msg ++ [chGT])]))
    ∧ (∀ (ser : Packet → Str) (st : ProgState) (p : Packet),
        ardHexStr (calculateChecksum p.data) ≠ p.checksum.take 2 →
        handleReception ser (some (Except.ok p)) st = (st, [Event.line sCHECKSUM_ERR]))
    ∧ (∀ (ser : Packet → Str) (rx : Option (Except Str Packet)) (st : ProgState),
        (handleReception ser rx st).1 = st) := by
  refine ⟨?_, ?_, ?_⟩
  · intro ser st msg
    rfl
  · intro ser st p h
    unfold handleReception mkHeader
    simp [h]
  · intro ser rx st
    match rx with
    | none => rfl
    | some (Except.error m) => rfl
    | some (Except.ok p) =>
      unfold handleReception
      dsimp only
      split
      · rfl
      · rfl

/-- The spec's checksum-mismatch test packet: `data` is `"hello"` but the
declared checksum is `"xx"`. -/
def pktC7 : Packet :=
  { type := ("file").toList, seq := 1, total := 2, filename := ("f.txt").toList,
    checksum := ("xx").toList, data_len := 5, data := ("hello").toList }

/-- Witness for C7 at the spec's mismatch packet. -/
theorem reception_error_handling_witness :
    handleReception serNil (some (Except.ok pktC7)) initialState =
      (initialState, [Event.line sCHECKSUM_ERR]) :=
  reception_error_handling.2.1 serNil initialState pktC7 (by decide)

/-- Modelled from the spec: the "2-hex-digit textual form" of a checksum
value, i.e. the value rendered in hexadecimal and padded to exactly two
digits (the over-the-air `checksum` field format described in the spec). -/
def specHex2 (n : Nat) : Str :=
  if n < 16 then '0' :: Nat.toDigits 16 n else Nat.toDigits 16 n

/-- Counterexample packet for C1: `data` is empty, so `checksum(data) = 0`,
and the declared checksum field is `"00"`, the 2-hex-digit textual form of
`0`. -/
def pktC1 : Packet :=
  { type := ("t").toList, seq := 1, total := 1, filename := ("f").toList,
    checksum := ("00").toList, data_len := 0, data := [] }

/-- Counterexample to claim C1 as stated: for `pktC1` the declared checksum
field (already 2 characters, unchanged by truncation) equals the 2-hex-digit
textual form of `checksum(data)`, yet the program emits
`<STATUS|CHECKSUM_ERR>` and no `<DATA|...>` line, because the code compares
against `String(calcSum, HEX)`, which renders `0` as `"0"`, not `"00"`. -/
theorem reception_hex_claim_cex :
    pktC1.checksum.take 2 = specHex2 (calculateChecksum pktC1.data) ∧
    handleReception serNil (some (Except.ok pktC1)) initialState =
      (initialState, [Event.line sCHECKSUM_ERR]) := by
  constructor
  · decide
  · decide

/-- Claim C1 (amended): a successfully parsed packet is re-serialized and
forwarded as `<DATA|<serialized>>` if and only if its declared checksum
field, truncated to 2 characters, equals the library-default textual form
of `checksum(data)` — minimal-width lowercase hexadecimal with no leading
zero — and on mismatch the program emits exactly `<STATUS|CHECKSUM_ERR>`,
no `<DATA|...>` line, and drops the packet (state unchanged). -/
theorem reception_forward_iff_ardHex :
    ∀ (ser : Packet → Str) (st : ProgState) (p : Packet),
      handleReception ser (some (Except.ok p)) st =
        (st, if ardHexStr (calculateChecksum p.data) = p.checksum.take 2
             then [Event.line (sDATA_OPEN ++ ser p ++ [chGT])]
             else [Event.line sCHECKSUM_ERR]) := by
  intro ser st p
  unfold handleReception mkHeader
  by_cases h : ardHexStr (calculateChecksum p.data) = p.checksum.take 2
  · simp [h]
  · simp [h]

/-- A `<SET|`-prefixed line: full effect of the interpreter. -/
lemma set_events (cmd : Str) (st : ProgState) (h : startsWithArd cmd pSET = true) :
    handleRadioCommand cmd st =
      ({ st with currentFreq := strtodQ (substringArd cmd 5 (indexOfArd cmd ',')) },
       [Event.setFreq (strtodQ (substringArd cmd 5 (indexOfArd cmd ','))),
        Event.line sFREQ_SET]) := by
  unfold handleRadioCommand
  simp [h]

/-- Claim C5: a `<SET|`-prefixed line parses the text between index 5 and
the first comma as a number, stores it in `currentFreq`, forwards it to the
radio's frequency-set operation, and emits `<STATUS|FREQ_SET>`; in
particular `<SET|433.92,x>` sets `currentFreq` to `433.92`, and malformed
numeric text yields `0` with no distinct error. -/
theorem set_freq_spec :
    (∀ (cmd : Str) (st : ProgState), startsWithArd cmd pSET = true →
      handleRadioCommand cmd st =
        ({ st with currentFreq := strtodQ (substringArd cmd 5 (indexOfArd cmd ',')) },
         [Event.setFreq (strtodQ (substringArd cmd 5 (indexOfArd cmd ','))),
          Event.line sFREQ_SET]))
    ∧ (∀ st : ProgState,
        handleRadioCommand (("<SET|433.92,x>").toList) st =
          ({ st with currentFreq := (433.92 : Rat) },
           [Event.setFreq (433.92 : Rat), Event.line sFREQ_SET]))
    ∧ (∀ st : ProgState,
        handleRadioCommand (("<SET|garbage,1>").toList) st =
          ({ st with currentFreq := 0 },
           [Event.setFreq 0, Event.line sFREQ_SET])) := by
  refine ⟨set_events, ?_, ?_⟩
  · intro st
    have hsub : substringArd (("<SET|433.92,x>").toList) 5
        (indexOfArd (("<SET|433.92,x>").toList) ',') = ("433.92").toList := by decide
    have hp : strtodParse (("433.92").toList) =
        { neg := false, ip := ("433").toList, fp := ("92").toList, ex := 0 } := by decide
    have hip : digitsToNat ['4', '3', '3'] = 433 := by decide
    have hfp : digitsToNat ['9', '2'] = 92 := by decide
    have hv : strtodQ (("433.92").toList) = (433.92 : Rat) := by
      unfold strtodQ
      rw [hp]
      norm_num [hip, hfp]
    rw [set_events (("<SET|433.92,x>").toList) st (by decide), hsub, hv]
  · intro st
    have hsub : substringArd (("<SET|garbage,1>").toList) 5
        (indexOfArd (("<SET|garbage,1>").toList) ',') = ("garbage").toList := by decide
    have hp : strtodParse (("garbage").toList) =
        { neg := false, ip := [], fp := [], ex := 0 } := by decide
    have hv : strtodQ (("garbage").toList) = 0 := by
      unfold strtodQ
      rw [hp]
      norm_num
    rw [set_events (("<SET|garbage,1>").toList) st (by decide), hsub, hv]

/-- Witness for C5 at a concrete `<SET|` line. -/
theorem set_freq_spec_witness :
    handleRadioCommand (("<SET|101,>").toList) initialState =
      ({ initialState with currentFreq := strtodQ (substringArd (("<SET|101,>").toList) 5
          (indexOfArd (("<SET|101,>").toList) ',')) },
       [Event.setFreq (strtodQ (substringArd (("<SET|101,>").toList) 5
          (indexOfArd (("<SET|101,>").toList) ','))),
        Event.line sFREQ_SET]) :=
  set_freq_spec.1 (("<SET|101,>").toList) initialState (by decide)

end CC1101

namespace CC1101

/-! ### Index / substring arithmetic lemmas -/

lemma u32_ofNat (n : Nat) (h : n < 4294967296) : u32 ((n : Nat) : Int) = n := by
  unfold u32
  omega

lemma substringArd_eq (s : Str) (li ri : Int) (l r : Nat)
    (hl : u32 li = l) (hr : u32 ri = r) (hlr : l ≤ r) (hls : l < s.length)
    (hrs : r ≤ s.length) :
    substringArd s li ri = (s.take r).drop l := by
  unfold substringArd
  rw [hl, hr, Nat.min_eq_left hlr, Nat.max_eq_right hlr, if_neg (by omega),
    Nat.min_eq_left hrs]

lemma substringArd_tail (s : Str) (li : Int) (l : Nat)
    (hl : u32 li = l) (hbound : l < 4294967295) (hs : s.length ≤ 4294967295) :
    substringArd s li (-1) = s.drop l := by
  unfold substringArd
  have h1 : u32 (-1) = 4294967295 := by decide
  rw [hl, h1, Nat.min_eq_left (by omega), Nat.max_eq_right (by omega)]
  by_cases hcase : s.length ≤ l
  · rw [if_pos hcase]
    exact (List.drop_eq_nil_of_le hcase).symm
  · rw [if_neg hcase, Nat.min_eq_right hs, List.take_length]

lemma idxOfAux_not_mem (c : Char) (l : Str) (h : c ∉ l) : idxOfAux c l = none := by
  induction l with
  | nil => rfl
  | cons x xs ih =>
    simp only [List.mem_cons, not_or] at h
    unfold idxOfAux
    rw [if_neg (fun hx => h.1 hx.symm), ih h.2]
    rfl

lemma idxOfAux_found (c : Char) (l1 l2 : Str) (h : c ∉ l1) :
    idxOfAux c (l1 ++ c :: l2) = some l1.length := by
  induction l1 with
  | nil =>
    rw [List.nil_append]
    simp [idxOfAux]
  | cons x xs ih =>
    simp only [List.mem_cons, not_or] at h
    simp only [List.cons_append, List.length_cons]
    simp only [idxOfAux]
    rw [if_neg (fun hx => h.1 hx.symm), ih h.2]
    rfl

lemma lastIdxAux_not_mem (c : Char) (l : Str) (h : c ∉ l) : lastIdxAux c l = none := by
  induction l with
  | nil => rfl
  | cons x xs ih =>
    simp only [List.mem_cons, not_or] at h
    have hxc : ¬ x = c := fun hx => h.1 hx.symm
    unfold lastIdxAux
    rw [ih h.2]
    simp [hxc]

lemma lastIdxAux_found (c : Char) (l1 l2 : Str) (h : c ∉ l2) :
    lastIdxAux c (l1 ++ c :: l2) = some l1.length := by
  induction l1 with
  | nil =>
    rw [List.nil_append]
    unfold lastIdxAux
    rw [lastIdxAux_not_mem c l2 h]
    simp
  | cons x xs ih =>
    simp only [List.cons_append, List.length_cons]
    unfold lastIdxAux
    rw [ih]

lemma sub_extract (A mid B : Str) :
    ((A ++ (mid ++ B)).take (A.length + mid.length)).drop A.length = mid := by
  rw [List.take_append, List.drop_left, List.take_left]

lemma sub_extract' (A mid B : Str) (a m : Nat) (ha : A.length = a)
    (hm : mid.length = m) :
    ((A ++ (mid ++ B)).take (a + m)).drop a = mid := by
  subst ha
  subst hm
  exact sub_extract A mid B

lemma takeWhile_ne_of_not_mem (c : Char) (l : Str) (h : c ∉ l) :
    l.takeWhile (fun x => x != c) = l := by
  induction l with
  | nil => rfl
  | cons x xs ih =>
    simp only [List.mem_cons, not_or] at h
    have hbx : (x != c) = true := bne_iff_ne.mpr (fun hx => h.1 hx.symm)
    simp only [List.takeWhile_cons, hbx]
    simp [ih h.2]

lemma split_at_char (c : Char) (l : Str) (h : c ∈ l) :
    l = l.takeWhile (fun x => x != c) ++ c :: (l.dropWhile (fun x => x != c)).tail ∧
    c ∉ l.takeWhile (fun x => x != c) := by
  induction l with
  | nil => cases h
  | cons x xs ih =>
    by_cases hx : x = c
    · subst hx
      constructor
      · simp [List.takeWhile_cons, List.dropWhile_cons]
      · simp [List.takeWhile_cons]
    · have hmem : c ∈ xs := by
        rcases List.mem_cons.mp h with h1 | h2
        · exact absurd h1.symm hx
        · exact h2
      obtain ⟨he, hn⟩ := ih hmem
      have hbx : (x != c) = true := bne_iff_ne.mpr hx
      constructor
      · simp only [List.takeWhile_cons, List.dropWhile_cons, hbx, if_true, List.cons_append]
        exact congrArg (x :: ·) he
      · simp only [List.takeWhile_cons, hbx, if_true]
        exact fun hc => (List.mem_cons.mp hc).elim (fun h1 => hx h1.symm) hn

end CC1101

namespace CC1101

lemma indexOfArd_append_found (P r1 l2 : Str) (c : Char) (hc : c ∉ P ++ r1) :
    indexOfArd (P ++ (r1 ++ c :: l2)) c = ((P.length + r1.length : Nat) : Int) := by
  unfold indexOfArd indexOfFrom
  rw [List.drop_zero, ← List.append_assoc, idxOfAux_found c (P ++ r1) l2 hc]
  simp [List.length_append]

lemma indexOfArd_not_found (s : Str) (c : Char) (hc : c ∉ s) :
    indexOfArd s c = -1 := by
  unfold indexOfArd indexOfFrom
  rw [List.drop_zero, idxOfAux_not_mem c s hc]

lemma indexOfFrom6_found (P r1 l2 : Str) (c : Char) (hP : P.length = 6) (hc : c ∉ r1) :
    indexOfFrom (P ++ (r1 ++ c :: l2)) c 6 = ((6 + r1.length : Nat) : Int) := by
  unfold indexOfFrom
  have hdrop : (P ++ (r1 ++ c :: l2)).drop 6 = r1 ++ c :: l2 := by
    rw [← hP]
    exact List.drop_left P _
  rw [hdrop, idxOfAux_found c r1 l2 hc]

lemma lastIndexOfArd_found (A B : Str) (c : Char) (hc : c ∉ B) :
    lastIndexOfArd (A ++ c :: B) c = ((A.length : Nat) : Int) := by
  unfold lastIndexOfArd
  rw [lastIdxAux_found c A B hc]

/-- Claim C10: a `<DATA|`-prefixed line emits no serial output at all, and
enqueues the text between the 6-character prefix and the first `>` of the
line; when the line contains no `>` at all, the whole remainder after the
prefix is enqueued verbatim. -/
theorem data_command_spec :
    ∀ (rest : Str) (st : ProgState),
      st.packetQueue.length < 50 →
      rest.length < 4294967289 →
      handleRadioCommand (pDATA ++ rest) st =
        ({ st with packetQueue :=
            st.packetQueue ++ [rest.takeWhile (fun x => x != chGT)] }, [])
      ∧ (chGT ∉ rest → rest.takeWhile (fun x => x != chGT) = rest) := by
  intro rest st hq hlen
  have hD : List.isPrefixOf pDATA (pDATA ++ rest) = true := isPrefixOf_append_self pDATA rest
  have hS : List.isPrefixOf pSET (pDATA ++ rest) = false :=
    isPrefixOf_two '<' 'D' 'S' (pDATA.drop 2) (pSET.drop 2) _ (by decide) hD
  have hT : List.isPrefixOf pTXMODE (pDATA ++ rest) = false :=
    isPrefixOf_two '<' 'D' 'T' (pDATA.drop 2) (pTXMODE.drop 2) _ (by decide) hD
  have hR : List.isPrefixOf pRXMODE (pDATA ++ rest) = false :=
    isPrefixOf_two '<' 'D' 'R' (pDATA.drop 2) (pRXMODE.drop 2) _ (by decide) hD
  have hRR : List.isPrefixOf pRX_READY (pDATA ++ rest) = false :=
    isPrefixOf_two '<' 'D' 'R' (pDATA.drop 2) (pRX_READY.drop 2) _ (by decide) hD
  have hF : List.isPrefixOf pFILE (pDATA ++ rest) = false :=
    isPrefixOf_two '<' 'D' 'F' (pDATA.drop 2) (pFILE.drop 2) _ (by decide) hD
  have hslen : (pDATA ++ rest).length = 6 + rest.length := by
    simp only [List.length_append]
    norm_num [pDATA]
  have hpayload : substringArd (pDATA ++ rest) 6 (indexOfArd (pDATA ++ rest) chGT) =
      rest.takeWhile (fun x => x != chGT) := by
    by_cases hmem : chGT ∈ rest
    · obtain ⟨he, hn⟩ := split_at_char chGT rest hmem
      set r1 := rest.takeWhile (fun x => x != chGT) with hr1
      set r2 := (rest.dropWhile (fun x => x != chGT)).tail with hr2
      have hnot : chGT ∉ pDATA ++ r1 := by
        intro hc
        rcases List.mem_append.mp hc with h1 | h1
        · revert h1; decide
        · exact hn h1
      have hlen1 : rest.length = r1.length + 1 + r2.length := by
        conv_lhs => rw [he]
        simp only [List.length_append, List.length_cons]
        omega
      have hidx : indexOfArd (pDATA ++ rest) chGT = ((6 + r1.length : Nat) : Int) := by
        conv_lhs => rw [he]
        rw [indexOfArd_append_found pDATA r1 r2 chGT hnot]
        norm_num [pDATA]
      rw [hidx]
      rw [substringArd_eq _ _ _ 6 (6 + r1.length)
        (by decide) (u32_ofNat _ (by omega)) (by omega) (by omega) (by omega)]
      conv_lhs => rw [he]
      exact sub_extract' pDATA r1 (chGT :: r2) 6 r1.length rfl rfl
    · have hnot2 : chGT ∉ pDATA ++ rest := by
        intro hc
        rcases List.mem_append.mp hc with h1 | h1
        · revert h1; decide
        · exact hmem h1
      rw [indexOfArd_not_found _ chGT hnot2]
      rw [takeWhile_ne_of_not_mem chGT rest hmem]
      rw [substringArd_tail _ _ 6 (by decide) (by norm_num) (by omega)]
      exact List.drop_left pDATA rest
  refine ⟨?_, fun hm => takeWhile_ne_of_not_mem chGT rest hm⟩
  unfold handleRadioCommand
  simp [startsWithArd, hS, hT, hR, hRR, hF, hD, hpayload, enqueueArd, hq]

/-- Witness for C10 at the line `<DATA|abc` (no closing `>`). -/
theorem data_command_spec_witness :
    (handleRadioCommand (pDATA ++ (("abc").toList)) initialState =
      ({ initialState with packetQueue :=
          initialState.packetQueue ++ [(("abc").toList).takeWhile (fun x => x != chGT)] }, []))
    ∧ (chGT ∉ (("abc").toList) →
        (("abc").toList).takeWhile (fun x => x != chGT) = ("abc").toList) :=
  data_command_spec (("abc").toList) initialState (by decide) (by decide)

end CC1101

namespace CC1101

/-- A `<FILE|`-prefixed line: full effect of the interpreter, with the field
extraction expressed through the string-library operations. -/
lemma file_events (cmd : Str) (st : ProgState)
    (h1 : startsWithArd cmd pSET = false) (h2 : startsWithArd cmd pTXMODE = false)
    (h3 : startsWithArd cmd pRXMODE = false) (h4 : startsWithArd cmd pRX_READY = false)
    (h5 : startsWithArd cmd pFILE = true) :
    handleRadioCommand cmd st =
      (st, [Event.line (sFILE_START ++ substringArd cmd 6 (indexOfFrom cmd chBar 6) ++ [chBar]
        ++ printIntArd (atolArd (substringArd cmd ((indexOfFrom cmd chBar 6) + 1)
            (lastIndexOfArd cmd chBar))) ++ [chGT])]) := by
  unfold handleRadioCommand
  simp [h1, h2, h3, h4, h5]

/-- `String::toInt` saturates: a total field of `3000000000` comes back as
`LONG_MAX`, so that is what the `<STATUS|FILE_START|...>` echo prints. -/
lemma atolArd_saturation : atolArd (("3000000000").toList) = 2147483647 := by
  decide

/-- Claim C8: a well-formed `<FILE|<name>|<total>|<size>>` line has its three
fields extracted via the `|`/`>` delimiter positions and produces exactly the
echo `<STATUS|FILE_START|<name>|<total>>` (with `<total>` the value of
`String::toInt` on the total field, saturating at the 32-bit `long` range),
with no state change. -/
theorem file_command_spec :
    ∀ (name ts ss : Str) (st : ProgState),
      chBar ∉ name → chBar ∉ ts → chBar ∉ ss →
      chGT ∉ name → chGT ∉ ts → chGT ∉ ss →
      name.length + ts.length + ss.length < 4294967280 →
      handleRadioCommand (pFILE ++ (name ++ (chBar :: (ts ++ (chBar :: (ss ++ [chGT])))))) st =
        (st, [Event.line (sFILE_START ++ name ++ [chBar] ++
          printIntArd (atolArd ts) ++ [chGT])]) := by
  intro name ts ss st hbn hbt hbs hgn hgtn hgs hbound
  set cmd := pFILE ++ (name ++ (chBar :: (ts ++ (chBar :: (ss ++ [chGT]))))) with hcmd
  have hF : List.isPrefixOf pFILE cmd = true := by
    rw [hcmd]
    exact isPrefixOf_append_self pFILE _
  have hS : List.isPrefixOf pSET cmd = false :=
    isPrefixOf_two '<' 'F' 'S' (pFILE.drop 2) (pSET.drop 2) cmd (by decide) hF
  have hT : List.isPrefixOf pTXMODE cmd = false :=
    isPrefixOf_two '<' 'F' 'T' (pFILE.drop 2) (pTXMODE.drop 2) cmd (by decide) hF
  have hR : List.isPrefixOf pRXMODE cmd = false :=
    isPrefixOf_two '<' 'F' 'R' (pFILE.drop 2) (pRXMODE.drop 2) cmd (by decide) hF
  have hRR : List.isPrefixOf pRX_READY cmd = false :=
    isPrefixOf_two '<' 'F' 'R' (pFILE.drop 2) (pRX_READY.drop 2) cmd (by decide) hF
  have hp6 : List.length pFILE = 6 := rfl
  have hclen : cmd.length = 9 + (name.length + ts.length + ss.length) := by
    rw [hcmd]
    simp only [List.length_append, List.length_cons, List.length_nil]
    omega
  have hidx1 : indexOfFrom cmd chBar 6 = ((6 + name.length : Nat) : Int) := by
    rw [hcmd]
    exact indexOfFrom6_found pFILE name (ts ++ (chBar :: (ss ++ [chGT]))) chBar rfl hbn
  have hassoc1 : cmd = (pFILE ++ (name ++ (chBar :: ts))) ++ (chBar :: (ss ++ [chGT])) := by
    rw [hcmd]
    simp [List.append_assoc]
  have hBlast : chBar ∉ ss ++ [chGT] := by
    intro hc
    rcases List.mem_append.mp hc with h1 | h1
    · exact hbs h1
    · revert h1; decide
  have hlast : lastIndexOfArd cmd chBar = ((7 + name.length + ts.length : Nat) : Int) := by
    rw [hassoc1, lastIndexOfArd_found _ _ chBar hBlast]
    have hlen7 : (pFILE ++ (name ++ (chBar :: ts))).length = 7 + name.length + ts.length := by
      simp only [List.length_append, List.length_cons]
      omega
    rw [hlen7]
  have hsub1 : substringArd cmd 6 ((6 + name.length : Nat) : Int) = name := by
    rw [substringArd_eq _ _ _ 6 (6 + name.length) (by decide) (u32_ofNat _ (by omega))
      (by omega) (by omega) (by omega)]
    rw [hcmd]
    exact sub_extract' pFILE name (chBar :: (ts ++ (chBar :: (ss ++ [chGT])))) 6
      name.length rfl rfl
  have hu2 : u32 (((6 + name.length : Nat) : Int) + 1) = 7 + name.length := by
    unfold u32
    omega
  have hsub2 : substringArd cmd (((6 + name.length : Nat) : Int) + 1)
      ((7 + name.length + ts.length : Nat) : Int) = ts := by
    rw [substringArd_eq _ _ _ (7 + name.length) (7 + name.length + ts.length) hu2
      (u32_ofNat _ (by omega)) (by omega) (by omega) (by omega)]
    have hassoc2 : cmd = (pFILE ++ (name ++ [chBar])) ++ (ts ++ (chBar :: (ss ++ [chGT]))) := by
      rw [hcmd]
      simp [List.append_assoc]
    rw [hassoc2]
    exact sub_extract' (pFILE ++ (name ++ [chBar])) ts (chBar :: (ss ++ [chGT]))
      (7 + name.length) ts.length
      (by simp only [List.length_append, List.length_cons, List.length_nil]; omega) rfl
  rw [file_events cmd st hS hT hR hRR hF, hidx1, hlast, hsub1, hsub2]

/-- Witness for C8 at the line `<FILE|test.txt|10|256>`. -/
theorem file_command_spec_witness :
    handleRadioCommand (pFILE ++ ((("test.txt").toList) ++ (chBar :: ((("10").toList) ++
        (chBar :: ((("256").toList) ++ [chGT])))))) initialState =
      (initialState, [Event.line (sFILE_START ++ (("test.txt").toList) ++ [chBar] ++
        printIntArd (atolArd (("10").toList)) ++ [chGT])]) :=
  file_command_spec (("test.txt").toList) (("10").toList) (("256").toList) initialState
    (by decide) (by decide) (by decide) (by decide) (by decide) (by decide) (by decide)

end CC1101
